import Mathlib

/-!
Verification of the GIR type-definition generator (node-gir-typedef).

The development shallowly embeds the core of the generator: the JavaScript
string primitives the code relies on, the identifier probe `isNameValid`,
the `indent` helper, the native-to-TypeScript type table `getTSType`, the
signature extractor (`getParameters`, `getReturnType`), the declaration
emitter `buildFunctionString`, the constructor extractor, the constant
branch of `extractNamespace`, and the class ordering loop `buildClasses`.

JavaScript semantics are modelled explicitly where they matter:
`String.prototype.replace` with a string pattern replaces only the first
occurrence; property access on an object never throws and yields
`undefined` (modelled as `none`) for a missing key; `Array(n).join(sep)`
produces `n - 1` copies of the separator; template interpolation renders
`undefined` as "undefined", `null` as "null", and a plain object as
"[object Object]"; thrown exceptions are modelled with `Option`/`Except`.
-/

namespace GirTypedef

/-- JS `String.prototype.replace(pat, repl)` with a string pattern: replaces
the first occurrence of `pat` only, scanning left to right. -/
def listStartsWith : List Char → List Char → Bool
  | [], _ => true
  | _ :: _, [] => false
  | p :: ps, c :: cs => p == c && listStartsWith ps cs

def replaceFirstAux (pat repl : List Char) : List Char → List Char
  | [] => []
  | c :: cs =>
    if listStartsWith pat (c :: cs) then repl ++ (c :: cs).drop pat.length
    else c :: replaceFirstAux pat repl cs

def jsReplace (s pat repl : String) : String :=
  ⟨replaceFirstAux pat.data repl.data s.data⟩

/-- JS whitespace (the characters appearing in this program's inputs). -/
def jsWhitespace (c : Char) : Bool :=
  c == ' ' || c == '\t' || c == '\n' || c == '\r'

/-- JS `String.prototype.trim`. -/
def jsTrim (s : String) : String :=
  ⟨((s.data.dropWhile jsWhitespace).reverse.dropWhile jsWhitespace).reverse⟩

/-- JS `Array.prototype.join` on an array of strings. -/
def jsJoin (sep : String) : List String → String
  | [] => ""
  | s :: ss => ss.foldl (fun acc x => acc ++ sep ++ x) s

/-- JS `str.split("\n")`. -/
def splitLinesAux : List Char → List Char → List String
  | [], acc => [⟨acc.reverse⟩]
  | c :: cs, acc =>
    if c == '\n' then ⟨acc.reverse⟩ :: splitLinesAux cs []
    else splitLinesAux cs (c :: acc)

def jsSplitNewline (s : String) : List String := splitLinesAux s.data []

/-- JS `Array(n).join(sep)`: `n` empty slots stringify to "" so the result is
`n - 1` copies of the separator (none for `n = 0` or `n = 1`). -/
def arrayJoin (n : Nat) (sep : String) : String :=
  jsJoin sep (List.replicate n "")

/-- JS `str.includes(".")`. -/
def jsIncludesDot (s : String) : Bool := s.data.contains '.'

/-- JS `s.substring(0, s.indexOf("."))`, used only when `s` contains a dot. -/
def beforeDot (s : String) : String := ⟨s.data.takeWhile (fun c => c ≠ '.')⟩

/-- JS `c.match("[0-9]")` is truthy exactly when the character is a digit. -/
def jsMatchDigit (c : Char) : Bool := '0' ≤ c && c ≤ '9'

/-- Truthiness of a JS string: the empty string is falsy. -/
def jsTruthy (s : String) : Bool := s ≠ ""

/-- Template interpolation of a possibly-`undefined` string. -/
def jsUndef : Option String → String
  | some s => s
  | none => "undefined"

/-- Template interpolation of a possibly-`null` string. -/
def jsNull : Option String → String
  | some s => s
  | none => "null"

/-! ### src/utils.ts -/

/-- ES keywords that cannot be bound with `let` in sloppy mode; `let` itself is
also disallowed as a lexically bound name. -/
def jsReservedWords : List String :=
  ["break", "case", "catch", "class", "const", "continue", "debugger",
   "default", "delete", "do", "else", "enum", "export", "extends", "false",
   "finally", "for", "function", "if", "import", "in", "instanceof", "new",
   "null", "return", "super", "switch", "this", "throw", "true", "try",
   "typeof", "var", "void", "while", "with", "let"]

def isIdentStart (c : Char) : Bool := c.isAlpha || c == '_' || c == '$'

def isIdentChar (c : Char) : Bool := isIdentStart c || c.isDigit

/-- utils.ts `isNameValid`: the source probes `eval("let " + word + " = 1")`
and returns `true` when the statement evaluates, `false` when it throws.
Modelled statically for identifier-shaped inputs: the probe succeeds exactly
when `word` is a nonempty ASCII identifier that is not a reserved word
(a reserved word, an empty name, a leading digit or punctuation such as
"..." all raise `SyntaxError`). Note the probe succeeds on VALID names. -/
def isNameValid (word : String) : Bool :=
  match word.data with
  | [] => false
  | c :: cs => isIdentStart c && cs.all isIdentChar && !(jsReservedWords.contains word)

/-- utils.ts `indent`: `lines.map(value => Array(depth).join('    ') + value)`.
`Array(depth).join` yields `depth - 1` soft tabs, not `depth`. -/
def indent (lines : List String) (depth : Nat) : List String :=
  lines.map (fun value => arrayJoin depth "    " ++ value)

/-! ### The abstract XML element view -/

structure XmlAttr where
  name : String
  value : String
deriving DecidableEq

inductive XmlNode where
  | mk (name : String) (attrs : List XmlAttr) (children : List XmlNode) (text : String)

def XmlNode.name : XmlNode → String
  | .mk n _ _ _ => n

def XmlNode.attrs : XmlNode → List XmlAttr
  | .mk _ a _ _ => a

def XmlNode.childNodes : XmlNode → List XmlNode
  | .mk _ _ c _ => c

def XmlNode.text : XmlNode → String
  | .mk _ _ _ t => t

/-- `element.attr(name)` in libxmljs: the attribute handle or JS `null`. -/
def XmlNode.attr (el : XmlNode) (n : String) : Option XmlAttr :=
  el.attrs.find? (fun a => a.name == n)

/-- First child with the given tag name (the `for ... of childNodes()` with an
early `return` used throughout the source). -/
def findChildNamed (n : String) : List XmlNode → Option XmlNode
  | [] => none
  | c :: cs => if c.name == n then some c else findChildNamed n cs

/-! ### Type mapper (part_002 lines 11-31 and 65-72) -/

def TYPEMAP : List (String × String) :=
  [("gboolean", "bool"), ("gint", "number"), ("guint", "number"),
   ("gint64", "number"), ("guint64", "number"), ("none", "null"),
   ("gchar", "string"), ("guchar", "string"), ("gchar*", "string"),
   ("guchar*", "string"), ("glong", "number"), ("gulong", "number"),
   ("glong64", "number"), ("gulong64", "number"), ("gfloat", "number"),
   ("gdouble", "number"), ("string", "string"), ("GString", "string"),
   ("utf8", "string")]

/-- `getTSType`: strips the first occurrence of `"const "`, then evaluates
`TYPEMAP[typename]`. JS property access on an object never throws: a missing
key yields `undefined` (here `none`), so the `catch` branch that would return
`"any"` is unreachable. -/
def getTSType (typename : String) : Option String :=
  let typename := jsReplace typename "const " ""
  (TYPEMAP.find? (fun kv => kv.1 == typename)).map (fun kv => kv.2)

/-! ### Signature extractor (part_002 lines 79-181) -/

/-- `getDocstring`: text of the first `doc` child with the first literal
`"\x"` rewritten, else `""`. -/
def getDocstring (element : XmlNode) : String :=
  match findChildNamed "doc" element.childNodes with
  | some n => jsReplace n.text "\\x" "x"
  | none => ""

/-- `getParameterType`: the first `type` child's `name` attribute through
`getTSType`; `""` when there is no `type` child. `.error` models the
`TypeError` thrown when the `type` child has no `name` attribute. -/
def getParameterType (element : XmlNode) : Except Unit (Option String) :=
  match findChildNamed "type" element.childNodes with
  | some n =>
    match n.attr "name" with
    | some a => .ok (getTSType a.value)
    | none => .error ()
  | none => .ok (some "")

/-- `getParameterDoc`: processed text of the first `doc` child; with no `doc`
child the JS function falls through and returns `undefined` (`none`). -/
def getParameterDoc (element : XmlNode) : Option String :=
  match findChildNamed "doc" element.childNodes with
  | some n => some (jsTrim (jsReplace (jsReplace n.text "\\x" "x") "\n" " "))
  | none => none

structure Parameter where
  name : String
  type : Option String
  doc : String
deriving DecidableEq

structure ReturnType where
  doc : Option String
  type : Option String
deriving DecidableEq

/-- The body of the `try` block processing one node of the `parameters`
child in `getParameters`; `none` models a caught exception (reading `name`
on a node without that attribute, a malformed `type` child, or calling
`.replace` on the `undefined` returned by `getParameterDoc` when the node
has no `doc` child). -/
def processParam (param : XmlNode) : Option Parameter :=
  let nameRes : Option String :=
    if param.name == "instance-parameter" then some ""
    else (param.attr "name").map XmlAttr.value
  match nameRes with
  | none => none
  | some paramName =>
    match getParameterType param with
    | .error _ => none
    | .ok type =>
      match getParameterDoc param with
      | none => none
      | some doc0 =>
        let doc := jsTrim (jsReplace doc0 "\n" " ")
        let paramName := if isNameValid paramName then "_" ++ paramName else paramName
        let paramName := if paramName == "..." then "...other" else paramName
        some { name := paramName, type := type, doc := doc }

/-- The duplicate check and push: a parameter is appended only when no
already-collected parameter carries the same name. -/
def pushParam (params : List Parameter) (param : XmlNode) : List Parameter :=
  match processParam param with
  | none => params
  | some p =>
    if (params.filter (fun v => v.name == p.name)).length == 0 then params ++ [p]
    else params

def stepNode (params : List Parameter) (node : XmlNode) : List Parameter :=
  if node.name == "parameters" then node.childNodes.foldl pushParam params
  else params

/-- `getParameters` (part_002 lines 123-156). -/
def getParameters (element : XmlNode) : List Parameter :=
  element.childNodes.foldl stepNode []

/-- `getReturnType` (part_002 lines 163-181). -/
def getReturnTypeAux : List XmlNode → Except Unit ReturnType
  | [] => .ok { doc := none, type := some "null" }
  | n :: ns =>
    if n.name == "return-value" then
      let doc := jsReplace (getDocstring n) "\n" " "
      match findChildNamed "type" n.childNodes with
      | some sub =>
        match sub.attr "name" with
        | some a => .ok { doc := some doc, type := getTSType a.value }
        | none => .error ()
      | none => getReturnTypeAux ns
    else getReturnTypeAux ns

def getReturnType (element : XmlNode) : Except Unit ReturnType :=
  getReturnTypeAux element.childNodes

/-! ### Declaration emitter (part_002 lines 194-223)

The process-wide `options.documentation` toggle is threaded as the
`documentation` argument. In documented mode the signature line interpolates
the `ReturnType` object itself (`${returntype}`), which a JS template
renders as "[object Object]". -/

def buildFunctionString (documentation : Bool) (name : String)
    (args : List Parameter) (returntype : ReturnType) (depth : Nat)
    (docstring : String) (extraTags : Option (List String)) : String :=
  let name := if isNameValid name then "_" ++ name else name
  let arglist :=
    jsJoin ", " (args.map (fun arg =>
      let t := jsUndef arg.type
      s!"{arg.name}: {t}"))
  let returntype :=
    if returntype.type == some "null" then { returntype with type := some "void" }
    else returntype
  if documentation then
    let paramDoc := args.map (fun arg =>
      let t := jsUndef arg.type
      s!" * @param \x7b{t}\x7d {arg.doc}")
    let rt := jsUndef returntype.type
    let rd := jsNull returntype.doc
    let paramDoc := paramDoc ++ [s!" * @returns \x7b{rt}\x7d {rd}"]
    let content := (jsSplitNewline docstring).map (fun line => s!" * {line}")
    let content := ["/**"] ++ content ++ paramDoc ++ [" */"]
    let content := content ++ [s!"{name}({arglist}): [object Object];"]
    jsJoin "\n" (indent content depth)
  else
    match extraTags with
    | some tags =>
      let tagStr := jsJoin " " tags
      s!"{tagStr} {name}({arglist}): {jsUndef returntype.type}"
    | none => s!"{name}({arglist}): {jsUndef returntype.type}"

/-! ### Constructor extractor (part_002 lines 288-317) -/

def instanceDoc (methodName : String) : String := s!"Instance of {methodName}."

/-- Processing of one `constructor` child. The source tests
`if ((methodName = "new"))`: a single `=` assigns, the expression's value is
the nonempty string "new", which is truthy, so the branch body always runs
and `methodName` is "new" from then on (the static factory keeps that name).
`.error` models the `TypeError` from a missing `name` attribute. -/
def extractConstructorNode (documentation : Bool) (node : XmlNode) :
    Except Unit (List String) :=
  match node.attr "name" with
  | none => .error ()
  | some a =>
    let methodName := a.value
    let docstring := getDocstring node
    let params := getParameters node
    let returnType : ReturnType :=
      { doc := some (instanceDoc methodName), type := some methodName }
    let methodName := "new"
    let primary :=
      if jsTruthy methodName then
        [buildFunctionString documentation "constructor" params returnType 1 docstring none]
      else []
    .ok (primary ++
      [buildFunctionString documentation methodName params returnType 1 docstring
        (some ["static"])])

def extractConstructorsAux (documentation : Bool) :
    List XmlNode → Except Unit (List String)
  | [] => .ok []
  | n :: ns =>
    if n.name == "constructor" then
      match extractConstructorNode documentation n with
      | .error e => .error e
      | .ok strs =>
        match extractConstructorsAux documentation ns with
        | .error e => .error e
        | .ok rest => .ok (strs ++ rest)
    else extractConstructorsAux documentation ns

/-- `extractConstructors`: the source first reads the class's own `name`
attribute (into an unused local, but a missing attribute still throws), then
walks the children. -/
def extractConstructors (documentation : Bool) (classTag : XmlNode) :
    Except Unit (List String) :=
  match classTag.attr "name" with
  | none => .error ()
  | some _ => extractConstructorsAux documentation classTag.childNodes

/-! ### The constant branch of extractNamespace (part_002 lines 433-439) -/

/-- Handling of one `constant` element. `constantName[0]` is `undefined` for
an empty name and `.match` then throws (`none`). The source calls
`constantValue.replace("\\", "\\\\")` but discards the result (JS strings
are immutable), so the emitted value keeps its backslashes unchanged. -/
def constantStatement (element : XmlNode) : Option String :=
  match element.attr "name" with
  | none => none
  | some a =>
    let constantName := a.value
    match constantName.data.head? with
    | none => none
    | some c0 =>
      let constantName := if jsMatchDigit c0 then "_" ++ constantName else constantName
      let constantValue :=
        match element.attrs.find? (fun v => v.name == "value") with
        | some v => v.value
        | none => "null"
      some s!"{constantName} = {constantValue};"

/-! ### Class graph builder and ordering loop (part_002 lines 325-371) -/

structure GIRClass where
  name : String
  parents : Option (List String)
  contents : String
deriving DecidableEq

structure BuildState where
  classesText : String
  imports : List String
  writtenClasses : List String
deriving DecidableEq

def initialBuildState : BuildState :=
  { classesText := "", imports := [], writtenClasses := [] }

/-- `Set.prototype.add` keeping insertion order. -/
def setAdd (s : List String) (x : String) : List String :=
  if s.contains x then s else s ++ [x]

/-- The mutable `parents` variable after the first `for` loop of
`buildClasses`: the last class's parents array (JS `if (classInfo.parents)`
replaces a `null` field by a fresh empty array), or the initial empty array.
The `while` loop's import bookkeeping reads this stale variable, not the
current class's parents. -/
def staleParentsOf (classes : List GIRClass) : List String :=
  classes.foldl (fun _ classInfo =>
    match classInfo.parents with
    | some ps => ps
    | none => []) []

/-- `localParents`, accumulated in the first loop and never read afterwards
(kept for fidelity to the source). -/
def localParentsOf (classes : List GIRClass) : List String :=
  classes.foldl (fun acc classInfo =>
    let parents := match classInfo.parents with
      | some ps => ps
      | none => []
    (parents.filter (fun p => !(jsIncludesDot p))).foldl setAdd acc) []

/-- One iteration of `for (let parent of klass.parents)`. `skip` is only
ever set, never cleared: the class body is appended at the first parent for
which neither check fired, and the membership check on `klass.name` keeps a
second append from happening. -/
def parentStep (staleParents : List String) (klass : GIRClass)
    (acc : BuildState × Bool) (parent : String) : BuildState × Bool :=
  let s := acc.1
  let skip := acc.2
  let skip :=
    if !(jsIncludesDot parent) && !(s.writtenClasses.contains parent) then true
    else skip
  let skip := if s.writtenClasses.contains klass.name then true else skip
  if skip then (s, skip)
  else
    let s := { s with
      classesText := s.classesText ++ klass.contents,
      writtenClasses := setAdd s.writtenClasses klass.name }
    let s := staleParents.foldl (fun st parentClass =>
      if jsIncludesDot parentClass then
        { st with imports := setAdd st.imports (beforeDot parentClass) }
      else st) s
    (s, skip)

/-- One `for (let klass of classes)` pass of the `while` loop. Iterating
`klass.parents` throws a `TypeError` (`.error`) when the field is JS `null`
(as on enum records); a class with an empty parents array is never appended
because the append sits inside the per-parent loop. -/
def buildPass (staleParents : List String) :
    List GIRClass → BuildState → Except Unit BuildState
  | [], s => .ok s
  | klass :: rest, s =>
    match klass.parents with
    | none => .error ()
    | some ps =>
      buildPass staleParents rest (ps.foldl (parentStep staleParents klass) (s, false)).1

/-- The `while (writtenClasses !== allClasses)` guard: `!==` compares the two
`Set` objects by reference, and they are distinct allocations, so the test
is true on every iteration regardless of the sets' contents. -/
def buildClassesGuard (_s : BuildState) : Bool := true

/-- Fuel-indexed unfolding of the `while` loop: `.ok none` means the fuel ran
out with the loop still running, `.ok (some r)` would mean a normal exit. -/
def buildClassesLoop (staleParents : List String) (classes : List GIRClass) :
    Nat → BuildState → Except Unit (Option (String × List String))
  | 0, _ => .ok none
  | fuel + 1, s =>
    if buildClassesGuard s then
      match buildPass staleParents classes s with
      | .error e => .error e
      | .ok s2 => buildClassesLoop staleParents classes fuel s2
    else .ok (some (s.classesText, s.imports))

/-- `buildClasses` (part_002 lines 325-371), run with the given fuel. -/
def buildClasses (fuel : Nat) (classes : List GIRClass) :
    Except Unit (Option (String × List String)) :=
  buildClassesLoop (staleParentsOf classes) classes fuel initialBuildState

/-! ### Statements of the spec's properties -/

/-- First-occurrence deduplication by parameter name: the order preserved is
the order of first occurrences, later duplicates are dropped. -/
def dedupFirstFrom (seen : List String) : List Parameter → List Parameter
  | [] => []
  | p :: ps =>
    if p.name ∈ seen then dedupFirstFrom seen ps
    else p :: dedupFirstFrom (p.name :: seen) ps

/-- All parameters the per-node processing extracts, in document order and
before the duplicate check. -/
def candList : List XmlNode → List Parameter
  | [] => []
  | n :: ns =>
    (if n.name == "parameters" then n.childNodes.filterMap processParam else []) ++
      candList ns

def paramCandidates (element : XmlNode) : List Parameter :=
  candList element.childNodes

/-- What one `constructor` child contributes per the claim: the primary
`constructor` declaration followed by the static factory (which the source's
assignment leaves named "new"). -/
def constructorEmission (documentation : Bool) (methodName : String)
    (node : XmlNode) : List String :=
  let returnType : ReturnType :=
    { doc := some (instanceDoc methodName), type := some methodName }
  [buildFunctionString documentation "constructor" (getParameters node)
      returnType 1 (getDocstring node) none,
   buildFunctionString documentation "new" (getParameters node)
      returnType 1 (getDocstring node) (some ["static"])]

/-- The declared name of a node, read off its `name` attribute. -/
def attrNameD (node : XmlNode) : String :=
  match node.attr "name" with
  | some a => a.value
  | none => ""

/-! ### Concrete inputs -/

/-- Two classes naming each other as local parents. -/
def cycleRegistry : List GIRClass :=
  [{ name := "A", parents := some ["B"], contents := "class A {}\n" },
   { name := "B", parents := some ["A"], contents := "class B {}\n" }]

/-- The spec scenario: class `B` with local parent `A` and foreign parent
`Gtk.Widget`, alongside class `A` with no parent. -/
def scenarioRegistry : List GIRClass :=
  [{ name := "B", parents := some ["A", "Gtk.Widget"], contents := "class B {}\n" },
   { name := "A", parents := some [], contents := "class A {}\n" }]

def typeChildGint : XmlNode := .mk "type" [⟨"name", "gint"⟩] [] ""

/-- An instance parameter carrying a `type` child and a `doc` child. -/
def instParamNode : XmlNode :=
  .mk "instance-parameter" [⟨"name", "self"⟩]
    [typeChildGint, .mk "doc" [] [] "the instance"] ""

/-- An ordinary parameter named `x` with a `type` child and a `doc` child. -/
def paramXNode : XmlNode :=
  .mk "parameter" [⟨"name", "x"⟩]
    [typeChildGint, .mk "doc" [] [] "an argument"] ""

/-- A callable whose `parameters` child holds the instance parameter and `x`. -/
def exampleCallable : XmlNode :=
  .mk "method" [⟨"name", "frob"⟩]
    [.mk "parameters" [] [instParamNode, paramXNode] ""] ""

/-- A parameter node with a `name` attribute and a `type` child but no `doc`
child. -/
def paramNoDocNode : XmlNode :=
  .mk "parameter" [⟨"name", "x"⟩] [typeChildGint] ""

/-- A callable whose single parameter has no `doc` child. -/
def noDocCallable : XmlNode :=
  .mk "function" [⟨"name", "f"⟩]
    [.mk "parameters" [] [paramNoDocNode] ""] ""

/-- A class with one constructor child named `init` (not `new`). -/
def exampleClassTag : XmlNode :=
  .mk "class" [⟨"name", "Widget"⟩]
    [.mk "constructor" [⟨"name", "init"⟩] [] ""] ""

def constBackslashNode : XmlNode :=
  .mk "constant" [⟨"name", "X"⟩, ⟨"value", "a\\b"⟩] [] ""

def constNoValueNode : XmlNode :=
  .mk "constant" [⟨"name", "Y"⟩] [] ""

def constDigitNode : XmlNode :=
  .mk "constant" [⟨"name", "9Z"⟩, ⟨"value", "1"⟩] [] ""

/-! ### Lemmas about the ordering loop -/

lemma buildClassesLoop_no_result (stale : List String) (classes : List GIRClass) :
    ∀ (fuel : Nat) (s : BuildState) (r : String × List String),
      buildClassesLoop stale classes fuel s ≠ Except.ok (some r) := by
  intro fuel
  induction fuel with
  | zero =>
    intro s r h
    simp [buildClassesLoop] at h
  | succ n ih =>
    intro s r h
    simp only [buildClassesLoop, buildClassesGuard, if_true] at h
    cases hp : buildPass stale classes s with
    | error e => rw [hp] at h; exact Except.noConfusion h
    | ok s2 => rw [hp] at h; exact ih s2 r h

lemma buildClassesLoop_fixpoint (stale : List String) (classes : List GIRClass)
    (s : BuildState) (h : buildPass stale classes s = Except.ok s) :
    ∀ fuel : Nat, buildClassesLoop stale classes fuel s = Except.ok none := by
  intro fuel
  induction fuel with
  | zero => rfl
  | succ n ih =>
    simp only [buildClassesLoop, buildClassesGuard, if_true, h, ih]

/-- C1: the claim says `buildClasses` terminates on every registry, still
emits the unwritten classes and flags the stall. In the source the `while`
guard `writtenClasses !== allClasses` compares the two `Set` objects by
reference and is therefore always true, so the loop never exits: for any
finite fuel the loop is still running (no input ever yields a normal
result), and on the two-class cycle in particular every pass is a no-op and
the fuel is exhausted without any class being emitted or any stall being
flagged. -/
theorem buildClasses_never_terminates :
    (∀ (fuel : Nat) (classes : List GIRClass) (r : String × List String),
        buildClasses fuel classes ≠ Except.ok (some r)) ∧
    (∀ fuel : Nat, buildClasses fuel cycleRegistry = Except.ok none) := by
  constructor
  · intro fuel classes r
    exact buildClassesLoop_no_result _ _ fuel _ r
  · intro fuel
    exact buildClassesLoop_fixpoint (staleParentsOf cycleRegistry) cycleRegistry
      initialBuildState (by rfl) fuel

/-- C3: the claim says the registry `[B with parents [A, Gtk.Widget], A with
no parents]` yields A's text strictly before B's and the import set `{Gtk}`.
In the source the pass is a no-op on this registry (B is skipped because A
is an unwritten local parent, and A — having an empty parents array — can
never be appended since the append statement sits inside the per-parent
loop), and the identity-compared `while` guard then spins forever: for every
fuel `buildClasses` produces no output at all, so neither the ordering nor
the import set ever materialises. -/
theorem buildClasses_scenario_no_output :
    buildPass (staleParentsOf scenarioRegistry) scenarioRegistry initialBuildState =
      Except.ok initialBuildState ∧
    (∀ fuel : Nat, buildClasses fuel scenarioRegistry = Except.ok none) := by
  refine ⟨by rfl, fun fuel => buildClassesLoop_fixpoint (staleParentsOf scenarioRegistry)
    scenarioRegistry initialBuildState (by rfl) fuel⟩

/-- C2: the claim says reserved identifiers get an `_` prefix and
non-reserved ones are untouched, so a function named `delete` renders as
`_delete`. The source prefixes when `isNameValid` returns true — the eval
probe succeeds exactly on non-reserved identifiers — so the behaviour is
inverted: `delete` keeps its name and the ordinary name `foo` is mangled to
`_foo`. -/
theorem buildFunctionString_reserved_inverted :
    isNameValid "delete" = false ∧ isNameValid "foo" = true ∧
    buildFunctionString false "delete" [] { doc := none, type := some "null" } 0 "" none
      = "delete(): void" ∧
    buildFunctionString false "foo" [] { doc := none, type := some "null" } 0 "" none
      = "_foo(): void" := by
  decide

/-- C4: the claim says names absent from `TYPEMAP` map to the opaque/any
type. The mapped names do return their table value (also after a leading
`const `), but JS property access on a missing key yields `undefined`
without throwing, so the `catch` branch that would return "any" never runs:
an unknown name produces `undefined` (`none`), not "any". -/
theorem getTSType_unknown_undefined :
    getTSType "GtkWidget" = none ∧
    getTSType "const gchar*" = some "string" ∧
    TYPEMAP.all (fun kv => getTSType kv.1 == some kv.2) = true := by
  decide

/-- C5: the claim says the instance parameter is skipped and every extracted
name is a non-empty identifier. The source only skips reading the `name`
attribute for an instance parameter: the node itself continues through the
loop body with `paramName` left as `""` and (when it carries a `doc` child)
is pushed into the list with an empty name. -/
theorem getParameters_keeps_instance_parameter :
    (getParameters exampleCallable).map Parameter.name = ["", "_x"] := by
  decide

/-- C8: the claim says every backslash of a constant's value is doubled. The
source calls `constantValue.replace("\\", "\\\\")` but discards the result
(JS strings are immutable), so the value is emitted with its backslashes
unchanged; the other parts of the claim (value attribute read, `null`
default, `_` prefix for a leading digit) do hold. -/
theorem constantStatement_backslash_unescaped :
    constantStatement constBackslashNode = some "X = a\\b;" ∧
    constantStatement constNoValueNode = some "Y = null;" ∧
    constantStatement constDigitNode = some "_9Z = 1;" := by
  decide

/-- C9: the claim says every line of a documented callable block is indented
by exactly `indentDepth` four-space units. `indent` computes the prefix as
`Array(depth).join('    ')`, which yields `depth - 1` copies of the soft
tab, so at depth 1 the emitted block has no indentation at all. -/
theorem indent_off_by_one :
    indent ["x"] 1 = ["x"] ∧ indent ["x"] 2 = ["    x"] ∧
    buildFunctionString true "f" [] { doc := none, type := some "null" } 1 "d" none =
      "/**\n * d\n * @returns \x7bvoid\x7d null\n */\n_f(): [object Object];" := by
  decide

/-! ### Parameters without documentation (C7) -/

lemma findChildNamed_eq_none (n : String) :
    ∀ cs : List XmlNode, (∀ c ∈ cs, c.name ≠ n) → findChildNamed n cs = none := by
  intro cs
  induction cs with
  | nil => intro _; rfl
  | cons c cs ih =>
    intro h
    have hc : (c.name == n) = false := by
      simp only [beq_eq_false_iff_ne, ne_eq]
      exact h c (List.mem_cons_self c cs)
    simp only [findChildNamed, hc, Bool.false_eq_true, if_false]
    exact ih (fun x hx => h x (List.mem_cons_of_mem c hx))

/-- C7 counterexample: the claim says a parameter with a `name` attribute and
a `type` child but no `doc` child is still included with its documentation
absent; on a callable with exactly one such parameter the extractor returns
the empty list. -/
theorem getParameters_drops_param_without_doc :
    getParameters noDocCallable = [] := by
  decide

/-- C7 as amended: a parameter node without a `doc` child is skipped, not
included — `getParameterDoc` falls through returning `undefined`, the
subsequent `.replace` call throws, and the surrounding `try`/`catch` drops
just that parameter. -/
theorem processParam_skips_without_doc (param : XmlNode)
    (h : ∀ c ∈ param.childNodes, c.name ≠ "doc") :
    processParam param = none := by
  have hdoc : getParameterDoc param = none := by
    rw [getParameterDoc, findChildNamed_eq_none _ _ h]
  simp only [processParam, hdoc]
  split
  · rfl
  · split <;> rfl

theorem processParam_skips_without_doc_witness :
    (∀ c ∈ paramNoDocNode.childNodes, c.name ≠ "doc") ∧
      processParam paramNoDocNode = none :=
  ⟨by decide, processParam_skips_without_doc paramNoDocNode (by decide)⟩

/-! ### First-occurrence deduplication (C6) -/

lemma dedupFirstFrom_congr :
    ∀ (ps : List Parameter) (s₁ s₂ : List String),
      (∀ x, x ∈ s₁ ↔ x ∈ s₂) → dedupFirstFrom s₁ ps = dedupFirstFrom s₂ ps := by
  intro ps
  induction ps with
  | nil => intro _ _ _; rfl
  | cons p ps ih =>
    intro s₁ s₂ hs
    by_cases h : p.name ∈ s₁
    · rw [dedupFirstFrom, dedupFirstFrom, if_pos h, if_pos ((hs p.name).mp h), ih _ _ hs]
    · rw [dedupFirstFrom, dedupFirstFrom, if_neg h,
        if_neg (fun hx => h ((hs p.name).mpr hx))]
      refine congrArg _ (ih _ _ ?_)
      intro x
      simp only [List.mem_cons, hs x]

lemma mem_names_dedupFirstFrom (x : String) :
    ∀ (ps : List Parameter) (seen : List String),
      x ∈ (dedupFirstFrom seen ps).map Parameter.name ↔
        x ∈ ps.map Parameter.name ∧ x ∉ seen := by
  intro ps
  induction ps with
  | nil => intro seen; simp [dedupFirstFrom]
  | cons p ps ih =>
    intro seen
    by_cases h : p.name ∈ seen
    · rw [dedupFirstFrom, if_pos h]
      simp only [List.map_cons, List.mem_cons, ih]
      constructor
      · rintro ⟨hx, hns⟩; exact ⟨Or.inr hx, hns⟩
      · rintro ⟨hx | hx, hns⟩
        · exact absurd (hx ▸ h) hns
        · exact ⟨hx, hns⟩
    · rw [dedupFirstFrom, if_neg h]
      simp only [List.map_cons, List.mem_cons, ih, List.mem_cons]
      constructor
      · rintro (hx | ⟨hx, hns⟩)
        · exact ⟨Or.inl hx, hx ▸ h⟩
        · exact ⟨Or.inr hx, fun hseen => hns (Or.inr hseen)⟩
      · rintro ⟨hx | hx, hns⟩
        · exact Or.inl hx
        · by_cases hxp : x = p.name
          · exact Or.inl hxp
          · exact Or.inr ⟨hx, fun hseen =>
              hseen.elim (fun he => hxp he) (fun he => hns he)⟩

lemma nodup_names_dedupFirstFrom :
    ∀ (ps : List Parameter) (seen : List String),
      ((dedupFirstFrom seen ps).map Parameter.name).Nodup := by
  intro ps
  induction ps with
  | nil => intro seen; simp [dedupFirstFrom]
  | cons p ps ih =>
    intro seen
    by_cases h : p.name ∈ seen
    · rw [dedupFirstFrom, if_pos h]; exact ih seen
    · rw [dedupFirstFrom, if_neg h]
      simp only [List.map_cons, List.nodup_cons]
      refine ⟨fun hmem => ?_, ih _⟩
      exact ((mem_names_dedupFirstFrom _ _ _).mp hmem).2 (List.mem_cons_self _ _)

lemma dedupFirstFrom_sublist :
    ∀ (ps : List Parameter) (seen : List String),
      List.Sublist (dedupFirstFrom seen ps) ps := by
  intro ps
  induction ps with
  | nil => intro seen; exact List.Sublist.refl _
  | cons p ps ih =>
    intro seen
    by_cases h : p.name ∈ seen
    · rw [dedupFirstFrom, if_pos h]; exact (ih seen).cons p
    · rw [dedupFirstFrom, if_neg h]; exact (ih _).cons₂ p

lemma dedupFirstFrom_append :
    ∀ (xs ys : List Parameter) (seen : List String),
      dedupFirstFrom seen (xs ++ ys) =
        dedupFirstFrom seen xs ++
          dedupFirstFrom (xs.map Parameter.name ++ seen) ys := by
  intro xs
  induction xs with
  | nil => intro ys seen; simp [dedupFirstFrom]
  | cons p xs ih =>
    intro ys seen
    by_cases h : p.name ∈ seen
    · simp only [List.cons_append, dedupFirstFrom, if_pos h, List.map_cons, List.append_eq]
      rw [ih]
      refine congrArg _ (dedupFirstFrom_congr _ _ _ ?_)
      intro x
      simp only [List.mem_append, List.mem_cons]
      constructor
      · intro hx
        exact Or.inr hx
      · rintro (rfl | hx)
        · exact Or.inr h
        · exact hx
    · simp only [List.cons_append, dedupFirstFrom, if_neg h, List.map_cons, List.append_eq]
      rw [ih]
      refine congrArg _ (congrArg _ (dedupFirstFrom_congr _ _ _ ?_))
      intro x
      simp only [List.mem_append, List.mem_cons]
      tauto

lemma filter_name_len_zero (params : List Parameter) (x : String) :
    ((params.filter (fun v => v.name == x)).length == 0) = true ↔
      x ∉ params.map Parameter.name := by
  simp only [beq_iff_eq, List.length_eq_zero, List.filter_eq_nil_iff, List.mem_map]
  constructor
  · rintro h ⟨a, ha, he⟩
    exact h a ha (by simp [he])
  · intro h a ha hb
    exact h ⟨a, ha, by simpa using hb⟩

lemma foldl_pushParam :
    ∀ (ps : List XmlNode) (acc : List Parameter),
      ps.foldl pushParam acc =
        acc ++ dedupFirstFrom (acc.map Parameter.name) (ps.filterMap processParam) := by
  intro ps
  induction ps with
  | nil => intro acc; simp [dedupFirstFrom]
  | cons q ps ih =>
    intro acc
    simp only [List.foldl_cons, List.filterMap_cons]
    cases hq : processParam q with
    | none =>
      have : pushParam acc q = acc := by rw [pushParam, hq]
      rw [this, ih]
    | some p =>
      by_cases hmem : p.name ∈ acc.map Parameter.name
      · have hfilter : ((acc.filter (fun v => v.name == p.name)).length == 0) = false := by
          rw [Bool.eq_false_iff]
          intro hcon
          exact (filter_name_len_zero acc p.name).mp hcon hmem
        have : pushParam acc q = acc := by
          rw [pushParam, hq]
          simp only [hfilter, Bool.false_eq_true, if_false]
        rw [this, ih, dedupFirstFrom, if_pos hmem]
      · have hfilter : ((acc.filter (fun v => v.name == p.name)).length == 0) = true :=
          (filter_name_len_zero acc p.name).mpr hmem
        have : pushParam acc q = acc ++ [p] := by
          rw [pushParam, hq]
          simp only [hfilter, if_true]
        rw [this, ih, dedupFirstFrom, if_neg hmem, List.append_assoc]
        refine congrArg _ (congrArg _ (dedupFirstFrom_congr _ _ _ ?_))
        intro x
        simp only [List.map_append, List.map_cons, List.map_nil, List.mem_append,
          List.mem_cons, List.mem_singleton, List.not_mem_nil, or_false]
        tauto

lemma foldl_stepNode :
    ∀ (ns : List XmlNode) (acc : List Parameter),
      ns.foldl stepNode acc =
        acc ++ dedupFirstFrom (acc.map Parameter.name) (candList ns) := by
  intro ns
  induction ns with
  | nil => intro acc; simp [candList, dedupFirstFrom]
  | cons n ns ih =>
    intro acc
    simp only [List.foldl_cons, stepNode, candList]
    by_cases hn : (n.name == "parameters") = true
    · simp only [hn, if_true]
      rw [foldl_pushParam, ih, dedupFirstFrom_append, List.append_assoc]
      refine congrArg _ (congrArg _ (dedupFirstFrom_congr _ _ _ ?_))
      intro x
      simp only [List.map_append, List.mem_append, mem_names_dedupFirstFrom]
      tauto
    · simp only [hn, Bool.false_eq_true, if_false, List.nil_append]
      exact ih acc

/-- C6: on every callable the extracted parameter list is exactly the
first-occurrence deduplication of the per-parameter extraction results:
each distinct name appears exactly once, the kept entries form a sublist
(so the order is the first-occurrence order), and duplicates are dropped
rather than renamed. -/
theorem getParameters_first_wins (element : XmlNode) :
    getParameters element = dedupFirstFrom [] (paramCandidates element) ∧
    ((getParameters element).map Parameter.name).Nodup ∧
    List.Sublist (getParameters element) (paramCandidates element) := by
  have h : getParameters element = dedupFirstFrom [] (paramCandidates element) := by
    have := foldl_stepNode element.childNodes []
    simpa [getParameters, paramCandidates] using this
  refine ⟨h, ?_, ?_⟩
  · rw [h]; exact nodup_names_dedupFirstFrom _ _
  · rw [h]; exact dedupFirstFrom_sublist _ _

/-! ### Constructor extraction (C10) -/

lemma extractConstructorNode_eq (documentation : Bool) (node : XmlNode)
    (h : (node.attr "name").isSome = true) :
    extractConstructorNode documentation node =
      Except.ok (constructorEmission documentation (attrNameD node) node) := by
  obtain ⟨a, ha⟩ := Option.isSome_iff_exists.mp h
  rw [extractConstructorNode, ha, attrNameD, ha]
  have ht : jsTruthy "new" = true := by decide
  simp only [ht, if_true, constructorEmission]
  rfl

lemma extractConstructorsAux_eq (documentation : Bool) :
    ∀ ns : List XmlNode,
      (∀ n ∈ ns, n.name = "constructor" → (n.attr "name").isSome = true) →
      extractConstructorsAux documentation ns =
        Except.ok ((ns.filter (fun n => n.name == "constructor")).foldr
          (fun node acc => constructorEmission documentation (attrNameD node) node ++ acc)
          []) := by
  intro ns
  induction ns with
  | nil => intro _; rfl
  | cons n ns ih =>
    intro h
    have hrest := ih (fun x hx hc => h x (List.mem_cons_of_mem n hx) hc)
    by_cases hn : (n.name == "constructor") = true
    · have hattr := h n (List.mem_cons_self n ns) (by simpa using hn)
      rw [extractConstructorsAux, if_pos hn, extractConstructorNode_eq _ _ hattr, hrest,
        @List.filter_cons_of_pos XmlNode (fun x => x.name == "constructor") n ns hn,
        List.foldr_cons]
    · rw [extractConstructorsAux, if_neg hn, hrest,
        @List.filter_cons_of_neg XmlNode (fun x => x.name == "constructor") n ns hn]

/-- C10: for every class whose `constructor` children carry a `name`
attribute, the extractor succeeds and each constructor child — regardless of
its declared name — contributes the primary `constructor` declaration
followed by the static factory: the source's `if ((methodName = "new"))`
is an assignment whose value is the truthy string "new", so the test is
always satisfied. -/
theorem extractConstructors_always_primary (documentation : Bool) (classTag : XmlNode)
    (hname : (classTag.attr "name").isSome = true)
    (hc : ∀ n ∈ classTag.childNodes, n.name = "constructor" →
      (n.attr "name").isSome = true) :
    extractConstructors documentation classTag = Except.ok
      ((classTag.childNodes.filter (fun n => n.name == "constructor")).foldr
        (fun node acc => constructorEmission documentation (attrNameD node) node ++ acc)
        []) := by
  obtain ⟨a, ha⟩ := Option.isSome_iff_exists.mp hname
  rw [extractConstructors, ha]
  exact extractConstructorsAux_eq documentation classTag.childNodes hc

theorem extractConstructors_always_primary_witness :
    extractConstructors true exampleClassTag = Except.ok
      ((exampleClassTag.childNodes.filter (fun n => n.name == "constructor")).foldr
        (fun node acc => constructorEmission true (attrNameD node) node ++ acc) []) :=
  extractConstructors_always_primary true exampleClassTag (by decide) (by decide)
